import Mathlib

/-!
Verification of the go-ietools repository: a shallow embedding of the
`buffers` package (the `Buffer` byte-buffer editor) and of the `pvrz`
package (the `Pvr` texture container), with theorems settling the frozen
claims about the natural-language specification.

Byte buffers are modelled as `List UInt8`; Go `int` values (offsets,
sizes, header fields) are modelled as `Int`; Go slicing that can panic is
modelled by `Option` results (`none` = runtime fault).  External
collaborators (zlib, the squish block codec, charmap transcoders) are
taken as function parameters, since their code is outside the repository.
-/

namespace IETools

/-- Error values carried in the sticky error state.  `outOfRange` models
`ietools.ErrOffsetOutOfRange`, `illegalArguments` models both
`ietools.ErrIllegalArguments` and `pvrz.ErrIllegalArguments`, and `other`
models ad-hoc errors built with `errors.New` / `fmt.Errorf` (the printf
formatting of numeric arguments is dropped; no claim inspects it). -/
inductive GoError where
  | outOfRange
  | illegalArguments
  | other (msg : String)
  deriving DecidableEq, Repr

/-- Go `copy(dst[pos:], src)`: writes `min (len dst - pos) (len src)`
bytes of `src` into `dst` starting at `pos` and returns the new list.
Go `copy` has memmove semantics, so for overlapping Go slices the result
is as if `src` were snapshotted first — which is exactly what this
functional rendering computes. -/
def copyAt (dst : List UInt8) (pos : Nat) (src : List UInt8) : List UInt8 :=
  dst.take pos ++ src.take (min src.length (dst.length - pos)) ++
    dst.drop (pos + min src.length (dst.length - pos))

/-- Writing zero bytes at indices `[a, b)` of a list (the zero-fill loops
of `PutStringEx`); callers only use it with `a ≤ b ≤ length`. -/
def zeroRange (l : List UInt8) (a b : Nat) : List UInt8 :=
  l.take a ++ List.replicate (b - a) 0 ++ l.drop b

/-- Two-complement reinterpretation of a `w`-bit unsigned value, used by
the `GetIntN` accessors (`int8(...)`, `int16(...)`, `int32(...)` casts). -/
def toSigned (w : Nat) (v : Nat) : Int :=
  if v < 2 ^ (w - 1) then (v : Int) else (v : Int) - 2 ^ w

/-- The `buffers.Buffer` struct: data buffer, dirty flag, sticky error. -/
structure Buffer where
  buf : List UInt8
  dirty : Bool
  err : Option GoError
  deriving DecidableEq, Repr

/-- `buffers.Wrap`: `none` models the Go `nil` slice, which is replaced by
`make([]byte, 256)` — a 256-byte zero-filled array (of length 256, not
merely capacity 256). -/
def wrap (buf : Option (List UInt8)) : Buffer :=
  { buf := buf.getD (List.replicate 256 0), dirty := false, err := none }

/-- `buffers.Create`, defined as `Wrap(nil)`. -/
def create : Buffer :=
  wrap none

/-- `Buffer.Bytes`: empty when the error state is set. -/
def bytes (b : Buffer) : List UInt8 :=
  if b.err.isSome then [] else b.buf

/-- `Buffer.ClearError`. -/
def clearError (b : Buffer) : Buffer :=
  { b with err := none }

/-- `Buffer.BufferLength` (a Go `int`); answers the actual length
regardless of the error state. -/
def bufferLength (b : Buffer) : Int :=
  (b.buf.length : Int)

/-- `Buffer.IsModified`; answers the dirty flag regardless of the error
state. -/
def isModified (b : Buffer) : Bool :=
  b.dirty

/-- `Buffer.ClearModified`; clears the dirty flag regardless of the error
state. -/
def clearModified (b : Buffer) : Buffer :=
  { b with dirty := false }

/-- `Buffer.GetUint8`; the value is the byte read, as a natural number. -/
def getUint8 (b : Buffer) (offset : Int) : Buffer × Nat :=
  if b.err.isSome then (b, 0)
  else if offset < 0 ∨ offset ≥ bufferLength b then
    ({ b with err := some .outOfRange }, 0)
  else (b, (b.buf.getD offset.toNat 0).toNat)

/-- `Buffer.GetInt8` = `int8(GetUint8(offset))`. -/
def getInt8 (b : Buffer) (offset : Int) : Buffer × Int :=
  let r := getUint8 b offset
  (r.1, toSigned 8 r.2)

/-- `Buffer.GetUint16`: little-endian 16-bit read. -/
def getUint16 (b : Buffer) (offset : Int) : Buffer × Nat :=
  if b.err.isSome then (b, 0)
  else if offset < 0 ∨ offset + 2 > bufferLength b then
    ({ b with err := some .outOfRange }, 0)
  else
    (b, (b.buf.getD offset.toNat 0).toNat +
        256 * (b.buf.getD (offset.toNat + 1) 0).toNat)

/-- `Buffer.GetInt16` = `int16(GetUint16(offset))`. -/
def getInt16 (b : Buffer) (offset : Int) : Buffer × Int :=
  let r := getUint16 b offset
  (r.1, toSigned 16 r.2)

/-- `Buffer.GetUint32`: little-endian 32-bit read. -/
def getUint32 (b : Buffer) (offset : Int) : Buffer × Nat :=
  if b.err.isSome then (b, 0)
  else if offset < 0 ∨ offset + 4 > bufferLength b then
    ({ b with err := some .outOfRange }, 0)
  else
    (b, (b.buf.getD offset.toNat 0).toNat +
        256 * (b.buf.getD (offset.toNat + 1) 0).toNat +
        65536 * (b.buf.getD (offset.toNat + 2) 0).toNat +
        16777216 * (b.buf.getD (offset.toNat + 3) 0).toNat)

/-- `Buffer.GetInt32` = `int32(GetUint32(offset))`. -/
def getInt32 (b : Buffer) (offset : Int) : Buffer × Int :=
  let r := getUint32 b offset
  (r.1, toSigned 32 r.2)

/-- `Buffer.GetBuffer`: copy of the region `[offset, offset+size)`.
A negative `size` that passes the bounds check reaches
`make([]byte, size)` and `b.buf[offset:offset+size]`, which fault
(`none`). -/
def getBuffer (b : Buffer) (offset size : Int) : Option (Buffer × List UInt8) :=
  if b.err.isSome then some (b, [])
  else if offset < 0 ∨ offset + size > bufferLength b then
    some ({ b with err := some .outOfRange }, [])
  else if size < 0 then none
  else some (b, (b.buf.drop offset.toNat).take size.toNat)

/-- `Buffer.PutUint8`: writes `byte(value)` at `offset` (write-if-different)
and returns the previous byte value.  The `value` parameter models the Go
`uint8` argument, hence the `% 256` reduction at the call boundary. -/
def putUint8 (b : Buffer) (offset : Int) (value : Nat) : Buffer × Nat :=
  if b.err.isSome then (b, 0)
  else if offset < 0 ∨ offset ≥ bufferLength b then
    ({ b with err := some .outOfRange }, 0)
  else
    let retVal := (b.buf.getD offset.toNat 0).toNat
    if retVal ≠ value % 256 then
      ({ b with buf := b.buf.set offset.toNat (UInt8.ofNat value), dirty := true },
       retVal)
    else (b, retVal)

/-- `Buffer.PutUint16`: little-endian 16-bit write-if-different, returning
the previous value; `value` models the Go `uint16` argument. -/
def putUint16 (b : Buffer) (offset : Int) (value : Nat) : Buffer × Nat :=
  if b.err.isSome then (b, 0)
  else if offset < 0 ∨ offset + 2 > bufferLength b then
    ({ b with err := some .outOfRange }, 0)
  else
    let v := value % 65536
    let retVal := (b.buf.getD offset.toNat 0).toNat +
                  256 * (b.buf.getD (offset.toNat + 1) 0).toNat
    if retVal ≠ v then
      ({ b with
         buf := (b.buf.set offset.toNat (UInt8.ofNat v)).set (offset.toNat + 1)
                  (UInt8.ofNat (v / 256)),
         dirty := true }, retVal)
    else (b, retVal)

/-- `Buffer.PutUint32`: little-endian 32-bit write-if-different, returning
the previous value; `value` models the Go `uint32` argument. -/
def putUint32 (b : Buffer) (offset : Int) (value : Nat) : Buffer × Nat :=
  if b.err.isSome then (b, 0)
  else if offset < 0 ∨ offset + 4 > bufferLength b then
    ({ b with err := some .outOfRange }, 0)
  else
    let v := value % 4294967296
    let retVal := (b.buf.getD offset.toNat 0).toNat +
                  256 * (b.buf.getD (offset.toNat + 1) 0).toNat +
                  65536 * (b.buf.getD (offset.toNat + 2) 0).toNat +
                  16777216 * (b.buf.getD (offset.toNat + 3) 0).toNat
    if retVal ≠ v then
      ({ b with
         buf := (((b.buf.set offset.toNat (UInt8.ofNat v)).set (offset.toNat + 1)
                  (UInt8.ofNat (v / 256))).set (offset.toNat + 2)
                  (UInt8.ofNat (v / 65536))).set (offset.toNat + 3)
                  (UInt8.ofNat (v / 16777216)),
         dirty := true }, retVal)
    else (b, retVal)

/-- `Buffer.PutBuffer`: write-if-different raw write of `src` at `offset`. -/
def putBuffer (b : Buffer) (offset : Int) (src : List UInt8) : Buffer :=
  if b.err.isSome then b
  else if offset < 0 ∨ offset + (src.length : Int) > bufferLength b then
    { b with err := some .outOfRange }
  else if src = (b.buf.drop offset.toNat).take src.length then b
  else { b with buf := copyAt b.buf offset.toNat src, dirty := true }

/-- Go loop `for idx := 0; equal && idx < len(src); idx++` of
`PutStringEx`/`PutBuffer`: compares `src` against `dst[pos:]`, stopping at
the first mismatch.  Reads past the end of `dst` (possible because the
loop bound is the encoded length, not the field size) fault: `none`. -/
def prefixEq : List UInt8 → List UInt8 → Nat → Option Bool
  | [], _, _ => some true
  | c :: rest, dst, pos =>
    match dst.get? pos with
    | none => none
    | some d => if d = c then prefixEq rest dst (pos + 1) else some false

/-- Core of `Buffer.PutStringEx` after text encoding (lines 364-375):
compare the encoded bytes with the stored prefix; if they differ, copy
them into the field and zero-fill the remainder; otherwise do nothing. -/
def putStringBytes (b : Buffer) (offset size : Int) (bs : List UInt8) :
    Option Buffer :=
  match prefixEq bs b.buf offset.toNat with
  | none => none
  | some true => some b
  | some false =>
    let buf1 := copyAt b.buf offset.toNat (bs.take size.toNat)
    let buf2 := if bs.length < size.toNat then
        zeroRange buf1 (offset.toNat + bs.length) (offset.toNat + size.toNat)
      else buf1
    some { b with buf := buf2, dirty := true }

/-- `Buffer.PutStringEx`.  `enc = some f` models a non-nil charmap whose
`Utf8ToAnsi` encoder is `f` (with `none` = encoder failure, which sets the
error state); `enc = none` models the nil charmap (raw UTF-8 bytes). -/
def putStringEx (enc : Option (String → Option (List UInt8))) (b : Buffer)
    (offset size : Int) (value : String) : Option Buffer :=
  if b.err.isSome then some b
  else if size ≤ 0 then some b
  else if offset < 0 ∨ offset + size > bufferLength b then
    some { b with err := some .outOfRange }
  else
    match enc with
    | some f =>
      match f value with
      | none => some { b with err := some (.other "encoding error") }
      | some bs => putStringBytes b offset size bs
    | none => putStringBytes b offset size value.toUTF8.toList

/-- `Buffer.GetStringEx`.  `dec = some f` models a non-nil charmap whose
`AnsiToUtf8` decoder is `f`; `dec = none` models the nil charmap, rendered
by a caller-supplied raw conversion `raw` (Go `string(buf)`). -/
def getStringEx (dec : Option (List UInt8 → Option String))
    (raw : List UInt8 → String) (b : Buffer) (offset size : Int)
    (null : Bool) : Buffer × String :=
  if b.err.isSome then (b, "")
  else if size ≤ 0 then (b, "")
  else if offset < 0 ∨ offset + size > bufferLength b then
    ({ b with err := some .outOfRange }, "")
  else
    let region := (b.buf.drop offset.toNat).take size.toNat
    let region := if null then region.takeWhile (fun c => c ≠ 0) else region
    match dec with
    | some f =>
      match f region with
      | none => ({ b with err := some (.other "decoding error") }, "")
      | some s => (b, s)
    | none => (b, raw region)

/-- `Buffer.ReplaceBuffer`: replaces the content, marks the buffer dirty
and resets the error state unconditionally (`none` models a nil array). -/
def replaceBuffer (b : Buffer) (buf : Option (List UInt8)) : Buffer :=
  { b with buf := buf.getD [], dirty := true, err := none }

/-- `Buffer.InsertBytes`: append `size` zero bytes, then shift the tail
right by `size` with an overlapping (memmove) copy.  The bytes of the
freshly opened gap keep their previous values (the zero bytes land at the
end before the shift). -/
def insertBytes (b : Buffer) (offset size : Int) : Buffer :=
  if b.err.isSome then b
  else if offset < 0 ∨ offset > bufferLength b then
    { b with err := some .outOfRange }
  else if 0 < size then
    let ext := b.buf ++ List.replicate size.toNat 0
    { b with
      buf := copyAt ext (offset + size).toNat (b.buf.drop offset.toNat)
      dirty := true }
  else b

/-- `Buffer.DeleteBytes`.  The source validates only `0 ≤ offset ≤ length`:
when `size` exceeds the length, the slice expressions `b.buf[size:]` and
`b.buf[:len-size]` fault (`none`); and the tail shift
`copy(buf2[offset:], b.buf[offset+size:])` is guarded by
`offset+size < len(buf2)` with `len(buf2) = length - size`, so it is
skipped whenever `offset + 2·size ≥ length`. -/
def deleteBytes (b : Buffer) (offset size : Int) : Option Buffer :=
  if b.err.isSome then some b
  else if offset < 0 ∨ offset > bufferLength b then
    some { b with err := some .outOfRange }
  else if 0 < size then
    if offset = 0 then
      if bufferLength b < size then none
      else some { b with buf := b.buf.drop size.toNat, dirty := true }
    else
      if bufferLength b < size then none
      else
        let buf2 := b.buf.take (bufferLength b - size).toNat
        -- copy(buf2[:offset], b.buf[:offset]) copies bytes onto themselves
        let buf2 := if offset + size < (buf2.length : Int) then
            copyAt buf2 offset.toNat (b.buf.drop (offset + size).toNat)
          else buf2
        some { b with buf := buf2, dirty := true }
  else some b

/-- `Buffer.DecompressInto` as called with a nil target buffer (the only
use inside the repository, from `DecompressReplace`).  `inflate` models
the zlib reader on the compressed region: `none` = stream error, `some out`
= the full decompressed stream, which the read/grow/trim loop of the
source returns exactly. -/
def decompressInto (inflate : List UInt8 → Option (List UInt8)) (b : Buffer)
    (offset size : Int) : Buffer × List UInt8 :=
  if b.err.isSome then (b, [])
  else if size ≤ 0 ∨ offset < 0 ∨ offset + size > bufferLength b then
    ({ b with err := some .outOfRange }, [])
  else
    match inflate ((b.buf.drop offset.toNat).take size.toNat) with
    | none => ({ b with err := some (.other "zlib error") }, [])
    | some out => (b, out)

/-- `Buffer.DecompressReplace`: decompress the region, resize the buffer
by inserting or deleting the length difference, then copy the output into
place.  Propagates the possible fault of `deleteBytes`. -/
def decompressReplace (inflate : List UInt8 → Option (List UInt8))
    (b : Buffer) (offset size : Int) : Option (Buffer × Int) :=
  if b.err.isSome then some (b, 0)
  else
    let size := if size < 0 then 0 else size
    let r := decompressInto inflate b offset size
    if r.1.err.isSome then some (r.1, 0)
    else
      let out := r.2
      let k := (out.length : Int)
      let step : Option Buffer :=
        if k > size then some (insertBytes r.1 (offset + size) (k - size))
        else if k < size then deleteBytes r.1 (offset + k) (size - k)
        else some r.1
      match step with
      | none => none
      | some b2 =>
        if b2.err.isSome then some (b2, 0)
        else some ({ b2 with
                     buf := copyAt b2.buf offset.toNat out
                     dirty := true }, k)

/-- Compression-level clamping of `Buffer.CompressInto` (line 509). -/
def clampLevel (level : Int) : Int :=
  if level < -2 then -2 else if level > 9 then 9 else level

/-- `Buffer.CompressInto`.  `deflate` models `zlib.NewWriterLevel` plus
`Write`/`Flush` on an in-memory sink, which cannot fail once the level is
clamped into `[-2, 9]`.  `bytes.NewBuffer(buffer)` starts from the caller
buffer, so the compressed stream is appended to it, and the result is
truncated to `size` bytes (`bytesWritten`) when longer. -/
def compressInto (deflate : Int → List UInt8 → List UInt8) (b : Buffer)
    (offset size level : Int) (buffer : List UInt8) : Buffer × List UInt8 :=
  if b.err.isSome then (b, buffer)
  else if size < 0 ∨ offset < 0 ∨ offset + size > bufferLength b then
    ({ b with err := some .outOfRange }, buffer)
  else
    let lv := clampLevel level
    let out := buffer ++ deflate lv ((b.buf.drop offset.toNat).take size.toNat)
    let out := if size < (out.length : Int) then out.take size.toNat else out
    (b, out)

/-- `Buffer.CompressReplace`: compress the region, resize the buffer by
the length difference, copy the compressed bytes into place. -/
def compressReplace (deflate : Int → List UInt8 → List UInt8) (b : Buffer)
    (offset size level : Int) : Option (Buffer × Int) :=
  if b.err.isSome then some (b, 0)
  else
    let size := if size < 0 then 0 else size
    let r := compressInto deflate b offset size level []
    if r.1.err.isSome then some (r.1, 0)
    else
      let out := r.2
      let k := (out.length : Int)
      let step : Option Buffer :=
        if k > size then some (insertBytes r.1 (offset + size) (k - size))
        else if k < size then deleteBytes r.1 (offset + k) (size - k)
        else some r.1
      match step with
      | none => none
      | some b2 =>
        if b2.err.isSome then some (b2, 0)
        else some ({ b2 with
                     buf := copyAt b2.buf offset.toNat out
                     dirty := true }, k)

/-- `Buffer.GetOffsetArray`.  `vals` is the Go variadic `sevenValues`
argument (a nil or short list fails the first check).  The source is
mirrored verbatim, including the validation of line 574, which re-checks
`sevenValues[3] == 3` instead of `sevenValues[5] == 3`. -/
def getOffsetArray (b : Buffer) (vals : List Int) : Buffer × List Int :=
  if b.err.isSome then (b, [])
  else if vals.length < 7 then ({ b with err := some .illegalArguments }, [])
  else
    let v0 := vals.getD 0 0
    let v1 := vals.getD 1 0
    let v2 := vals.getD 2 0
    let v3 := vals.getD 3 0
    let v4 := vals.getD 4 0
    let v5 := vals.getD 5 0
    let v6 := vals.getD 6 0
    if v0 ≤ 0 ∨ v2 ≤ 0 then ({ b with err := some .illegalArguments }, [])
    else if v1 ≠ 2 ∧ v1 ≠ 4 then ({ b with err := some .illegalArguments }, [])
    else if v3 < 1 ∨ v3 > 4 ∨ v3 = 3 then
      ({ b with err := some .illegalArguments }, [])
    else if v5 < 0 ∨ v5 > 4 ∨ v3 = 3 then
      ({ b with err := some .illegalArguments }, [])
    else if v6 ≤ 0 then ({ b with err := some .illegalArguments }, [])
    else
      let r1 := if v1 = 2 then getInt16 b v0
                else if v1 = 4 then getInt32 b v0 else (b, 0)
      let r2 := if v3 = 1 then getInt8 r1.1 v2
                else if v3 = 2 then getInt16 r1.1 v2
                else if v3 = 4 then getInt32 r1.1 v2 else (r1.1, 0)
      let r3 := if 0 < v4 then
          (if v5 = 1 then getInt8 r2.1 v4
           else if v5 = 2 then getInt16 r2.1 v4
           else if v5 = 4 then getInt32 r2.1 v4 else (r2.1, 0))
        else (r2.1, 0)
      if 0 < r1.2 ∧ 0 < r2.2 ∧ r3.2 ≤ r2.2 then
        (r3.1, (List.range (r2.2 - r3.2).toNat).map
          (fun j => r1.2 + (r3.2 + (j : Int)) * v6))
      else (r3.1, [])

/-! The `pvrz` package. -/

/-- Pixel compression type `TYPE_BC1` (DXT1). -/
def TYPE_BC1 : Int := 7
/-- Pixel compression type `TYPE_BC2` (DXT3). -/
def TYPE_BC2 : Int := 9
/-- Pixel compression type `TYPE_BC3` (DXT5). -/
def TYPE_BC3 : Int := 11
/-- Color space `SPACE_LRGB`. -/
def SPACE_LRGB : Int := 0
/-- Color space `SPACE_SRGB`. -/
def SPACE_SRGB : Int := 1
/-- Channel type `CHAN_UBN`. -/
def CHAN_UBN : Int := 0
/-- Channel type `CHAN_SB` (largest supported channel-type constant). -/
def CHAN_SB : Int := 3
/-- Quality mode `QUALITY_LOW`. -/
def QUALITY_LOW : Int := 0
/-- Quality mode `QUALITY_DEFAULT`. -/
def QUALITY_DEFAULT : Int := 1
/-- Quality mode `QUALITY_HIGH`. -/
def QUALITY_HIGH : Int := 2
/-- The PVR signature constant `versionSig = 0x03525650`. -/
def versionSig : Int := 0x03525650

/-- The parsed PVR header information (`pvrInfo`). -/
structure PvrInfo where
  flags : Int
  pixelType : Int
  colorSpace : Int
  channelType : Int
  height : Int
  width : Int
  depth : Int
  numSurfaces : Int
  numFaces : Int
  numMipMaps : Int
  meta : List UInt8
  deriving DecidableEq, Repr

/-- The main `Pvr` structure.  The pixel image (`draw.Image`) is abstract:
`α` stands for the image type, produced and consumed only through the
collaborator functions passed to the operations. -/
structure Pvr (α : Type) where
  info : PvrInfo
  img : α
  err : Option GoError
  quality : Int
  weightByAlpha : Bool
  useMetric : Bool
  deriving DecidableEq, Repr

/-- `pvrz.CreateNew`; `newImage` models `image.NewRGBA` for the abstract
image type. -/
def createNew (newImage : Int → Int → α) (width height pixelType : Int) :
    Pvr α :=
  let width := if width < 1 then 1 else width
  let height := if height < 1 then 1 else height
  { info :=
      { flags := 0
        pixelType := pixelType
        colorSpace := SPACE_LRGB
        channelType := CHAN_UBN
        height := height
        width := width
        depth := 1
        numSurfaces := 1
        numFaces := 1
        numMipMaps := 1
        meta := [] }
    img := newImage width height
    err := none
    quality := QUALITY_DEFAULT
    weightByAlpha := false
    useMetric := false }

/-- `Pvr.GetWidth`. -/
def getWidth (p : Pvr α) : Int :=
  if p.err.isSome then 0 else p.info.width

/-- `Pvr.GetHeight`. -/
def getHeight (p : Pvr α) : Int :=
  if p.err.isSome then 0 else p.info.height

/-- `Pvr.GetImage` (returns nil — `none` — when the error state is set);
`copyImg` models the defensive redraw into a fresh RGBA canvas. -/
def getImage (copyImg : α → α) (p : Pvr α) : Option α :=
  if p.err.isSome then none else some (copyImg p.img)

/-- `Pvr.SetImage`; `dims` models `Bounds().Dx()/Dy()` and `copyImg` the
defensive redraw; the `none` argument models a nil image. -/
def setImage (dims : α → Int × Int) (copyImg : α → α) (p : Pvr α)
    (img : Option α) : Pvr α :=
  if p.err.isSome then p
  else
    match img with
    | none => { p with err := some .illegalArguments }
    | some i =>
      { p with
        info := { p.info with width := (dims i).1, height := (dims i).2 }
        img := copyImg i }

/-- `Pvr.SetDimension`; `resize` models `resizeCanvas`, which always
returns a canvas of exactly the requested dimensions (`image.NewRGBA`
never yields nil, so the nil check of the source is dead). -/
def setDimension (resize : α → Int → Int → Bool → α) (p : Pvr α)
    (width height : Int) (preserve : Bool) : Pvr α :=
  if p.err.isSome then p
  else if width = p.info.width ∧ height = p.info.height ∧ preserve then p
  else if width < 1 then { p with err := some .illegalArguments }
  else if height < 1 then { p with err := some .illegalArguments }
  else
    { p with
      info := { p.info with width := width, height := height }
      img := resize p.img width height preserve }

/-- `pvrz.pixelTypeSupported`. -/
def pixelTypeSupported (value : Int) : Bool :=
  value = TYPE_BC1 ∨ value = TYPE_BC2 ∨ value = TYPE_BC3

/-- `Pvr.GetPixelType`: note that, unlike every other accessor, it does
not consult the error state. -/
def getPixelType (p : Pvr α) : Int :=
  p.info.pixelType

/-- `Pvr.SetPixelType`. -/
def setPixelType (p : Pvr α) (pixelType : Int) : Pvr α :=
  if p.err.isSome then p
  else if ¬ pixelTypeSupported pixelType then
    { p with err := some .illegalArguments }
  else { p with info := { p.info with pixelType := pixelType } }

/-- `Pvr.GetChannelType`. -/
def getChannelType (p : Pvr α) : Int :=
  if p.err.isSome then 0 else p.info.channelType

/-- `Pvr.SetChannelType`. -/
def setChannelType (p : Pvr α) (channelType : Int) : Pvr α :=
  if p.err.isSome then p
  else if channelType < CHAN_UBN ∨ channelType > CHAN_SB then
    { p with err := some .illegalArguments }
  else { p with info := { p.info with channelType := channelType } }

/-- `Pvr.GetColorSpace`. -/
def getColorSpace (p : Pvr α) : Int :=
  if p.err.isSome then 0 else p.info.colorSpace

/-- `Pvr.SetColorSpace`. -/
def setColorSpace (p : Pvr α) (colorSpace : Int) : Pvr α :=
  if p.err.isSome then p
  else if colorSpace ≠ SPACE_LRGB ∧ colorSpace ≠ SPACE_SRGB then
    { p with err := some .illegalArguments }
  else { p with info := { p.info with colorSpace := colorSpace } }

/-- `Pvr.GetQuality`. -/
def getQuality (p : Pvr α) : Int :=
  if p.err.isSome then 0 else p.quality

/-- `Pvr.SetQuality`: clamps the argument into
`[QUALITY_LOW, QUALITY_HIGH]` instead of rejecting it. -/
def setQuality (p : Pvr α) (q : Int) : Pvr α :=
  if p.err.isSome then p
  else
    let q := if q < QUALITY_LOW then QUALITY_LOW else q
    let q := if q > QUALITY_HIGH then QUALITY_HIGH else q
    { p with quality := q }

/-- `Pvr.GetWeightByAlpha`. -/
def getWeightByAlpha (p : Pvr α) : Bool :=
  if p.err.isSome then false else p.weightByAlpha

/-- `Pvr.SetWeightByAlpha`. -/
def setWeightByAlpha (p : Pvr α) (set : Bool) : Pvr α :=
  if p.err.isSome then p else { p with weightByAlpha := set }

/-- `Pvr.IsPerceptiveMetric`. -/
def isPerceptiveMetric (p : Pvr α) : Bool :=
  if p.err.isSome then false else p.useMetric

/-- `Pvr.SetPerceptiveMetric`. -/
def setPerceptiveMetric (p : Pvr α) (set : Bool) : Pvr α :=
  if p.err.isSome then p else { p with useMetric := set }

/-- `Pvr.ClearError`. -/
def pvrClearError (p : Pvr α) : Pvr α :=
  { p with err := none }

/-- `pvrz.decodeTexture`; `squishDec` models `squish.DecompressImage`
(plus the conversion of its result to `draw.Image`), applied to
width, height, data and pixel type.  The `data == nil` guard is not
representable for a `List` argument and is never hit by `importPvr`
(its data argument is a slice of a validated buffer). -/
def decodeTexture (squishDec : Int → Int → List UInt8 → Int → α)
    (data : List UInt8) (width height pixelType : Int) : Option α :=
  if width ≤ 0 ∨ height ≤ 0 then none
  else if pixelType = TYPE_BC1 ∨ pixelType = TYPE_BC2 ∨ pixelType = TYPE_BC3
  then some (squishDec width height data pixelType)
  else none

/-- Lines 384-430 of `pvrz.go`: parsing and validation of the fixed
0x34-byte PVR header and of the texture payload, shared by the raw and
the unwrapped-PVRZ paths of `importPvr`.  Each `p.err = ...; return` of
the source is an `Except.error`; the successful fall-through to the field
assignments of lines 433-440 is the final `Except.ok`.  `storageReq`
models `squish.GetStorageRequirements` composed with the
pixel-type-to-DXT-flag selection of lines 422-427 (the pixel type is
validated before use). -/
def parsePvrHeader (storageReq : Int → Int → Int → Int)
    (squishDec : Int → Int → List UInt8 → Int → α)
    (buf : Buffer) (sig : Int) : Except GoError (PvrInfo × α) :=
  if sig ≠ versionSig then
    .error (.other "Invalid PVR header signature")
  else if bufferLength buf < 0x34 then
    .error (.other "PVR input buffer too small")
  else
    let rFlags := getInt32 buf 0x04
    let rPf := getInt32 rFlags.1 0x0c
    if rPf.2 ≠ 0 then
      .error (.other "Extended pixel format not supported")
    else
      let rPt := getInt32 rPf.1 0x08
      if ¬ pixelTypeSupported rPt.2 then
        .error (.other "Unsupported pixel format")
      else
        let rCs := getInt32 rPt.1 0x10
        if rCs.2 < 0 ∨ rCs.2 > 1 then
          .error (.other "Unsupported color space")
        else
          let rCt := getInt32 rCs.1 0x14
          if rCt.2 < CHAN_UBN ∨ rCt.2 > CHAN_SB then
            .error (.other "Unsupported channel type")
          else
            let rH := getInt32 rCt.1 0x18
            if rH.2 < 0 ∨ rH.2 > 4096 then
              .error (.other "Unsupported texture height")
            else if rH.2 % 4 ≠ 0 then
              .error (.other "Texture height must be a multiple of 4")
            else
              let rW := getInt32 rH.1 0x1c
              if rW.2 < 0 ∨ rW.2 > 4096 then
                .error (.other "Unsupported texture width")
              else if rW.2 % 4 ≠ 0 then
                .error (.other "Texture width must be a multiple of 4")
              else
                let rD := getInt32 rW.1 0x20
                if rD.2 ≠ 1 then
                  .error (.other "Unsupported texture depth")
                else
                  let rNs := getInt32 rD.1 0x24
                  if rNs.2 ≠ 1 then
                    .error (.other "Unsupported number of texture surfaces")
                  else
                    let rNf := getInt32 rNs.1 0x28
                    if rNf.2 ≠ 1 then
                      .error (.other "Unsupported number of texture faces")
                    else
                      let rNm := getInt32 rNf.1 0x2c
                      if rNm.2 ≠ 1 then
                        .error (.other "Unsupported number of texture mip maps")
                      else
                        let rMl := getInt32 rNm.1 0x30
                        let metaLen := if rMl.2 < 0 then 0 else rMl.2
                        if bufferLength rMl.1 < 0x34 + metaLen then
                          .error (.other "Metadata size mismatch")
                        else
                          -- metaLen > 0 here implies the GetBuffer call is
                          -- in bounds with a positive size: no fault.
                          let rMeta :=
                            if 0 < metaLen then
                              ((getBuffer rMl.1 0x34 metaLen).getD (rMl.1, []))
                            else (rMl.1, [])
                          let ofsData := 0x34 + metaLen
                          let texSize := storageReq rW.2 rH.2 rPt.2
                          if bufferLength rMeta.1 - ofsData < texSize then
                            .error (.other "PVR input buffer too small")
                          else
                            match decodeTexture squishDec
                                ((bytes rMeta.1).drop ofsData.toNat)
                                rW.2 rH.2 rPt.2 with
                            | none =>
                              .error (.other "Error while decoding texture data")
                            | some img =>
                              .ok
                                ({ flags := rFlags.2
                                   pixelType := rPt.2
                                   colorSpace := rCs.2
                                   channelType := rCt.2
                                   height := rH.2
                                   width := rW.2
                                   depth := rD.2
                                   numSurfaces := rNs.2
                                   numFaces := rNf.2
                                   numMipMaps := rNm.2
                                   meta := rMeta.2 }, img)

/-- Application of the parsed header to the `Pvr` object: lines 433-440
of `pvrz.go` on success, the single `p.err` assignment on failure. -/
def importPvrHeader (storageReq : Int → Int → Int → Int)
    (squishDec : Int → Int → List UInt8 → Int → α)
    (p : Pvr α) (buf : Buffer) (sig : Int) : Pvr α :=
  match parsePvrHeader storageReq squishDec buf sig with
  | .error e => { p with err := some e }
  | .ok (i, im) => { p with info := i, img := im }

/-- `Pvr.importPvr`: wrap the input, detect the PVRZ wrapper form (a
leading declared size instead of the signature), unwrap it if present,
then parse the header via `importPvrHeader`.  `inflate` models the zlib
decompressor.  The `data == nil` entry check is not representable for a
`List` argument (`Load` never passes a nil slice). -/
def importPvr (inflate : List UInt8 → Option (List UInt8))
    (storageReq : Int → Int → Int → Int)
    (squishDec : Int → Int → List UInt8 → Int → α)
    (p : Pvr α) (data : List UInt8) : Option (Pvr α) :=
  let buf0 := wrap (some data)
  if buf0.err.isSome then some { p with err := buf0.err }
  else if bufferLength buf0 < 4 then
    some { p with err := some (.other "Input buffer too small") }
  else
    let r0 := getInt32 buf0 0
    if r0.2 ≠ versionSig then
      if r0.2 < 0x34 ∨ r0.2 > 2 ^ 25 then
        some { p with err := some (.other "PVR target size outside of accepted limits") }
      else
        match decompressReplace inflate r0.1 4 (bufferLength r0.1 - 4) with
        | none => none
        | some (buf1, _) =>
          if buf1.err.isSome then some { p with err := buf1.err }
          else
            match deleteBytes buf1 0 4 with
            | none => none
            | some buf2 =>
              if bufferLength buf2 < r0.2 then
                some { p with err := some (.other "PVRZ data size mismatch") }
              else
                match (if bufferLength buf2 > r0.2 then
                    deleteBytes buf2 r0.2 (bufferLength buf2 - r0.2)
                  else some buf2) with
                | none => none
                | some buf3 =>
                  let r1 := getInt32 buf3 0
                  some (importPvrHeader storageReq squishDec p r1.1 r1.2)
    else some (importPvrHeader storageReq squishDec p r0.1 r0.2)

/-! Theorems for the claims. -/

/-- C3.  The claim states that every offset-taking operation called with
`offset + size > length` on an error-free buffer sets the OutOfRange
error, returns, and leaves the content unchanged — in particular
`DeleteBytes`.  The code violates this: `DeleteBytes` validates only the
offset, so on the 4-byte buffer `[1,2,3,4]`, `DeleteBytes(2,3)` silently
truncates the content to `[1]` without setting any error, and
`DeleteBytes(2,10)` faults on the slice expression `b.buf[:len-size]`
(modelled by `none`).  For contrast, the final conjunct shows the check
the sibling accessor `GetUint16` performs at an analogous input. -/
theorem c3_deleteBytes_missing_bounds_check :
    deleteBytes ⟨[1, 2, 3, 4], false, none⟩ 2 3 =
      some ⟨[1], true, none⟩ ∧
    deleteBytes ⟨[1, 2, 3, 4], false, none⟩ 2 10 = none ∧
    getUint16 ⟨[1, 2, 3, 4], false, none⟩ 3 =
      (⟨[1, 2, 3, 4], false, some .outOfRange⟩, 0) := by
  refine ⟨by decide, by decide, ?_⟩
  simp [getUint16, bufferLength]

/-- C5 counterexample.  The claim states that `SetQuality` rejects a value
outside the quality enumeration with InvalidArguments and leaves the
stored quality unchanged.  On a fresh error-free container (quality
`QUALITY_DEFAULT = 1`), `SetQuality(5)` instead clamps the value: the
error state stays clear and the stored quality becomes 2. -/
theorem c5_setQuality_clamps_counterexample :
    (setQuality (createNew (fun _ _ => ()) 8 8 7) 5).err = none ∧
    (setQuality (createNew (fun _ _ => ()) 8 8 7) 5).quality = 2 := by
  decide

/-- C6.  The claim states that after `PutStringEx` into an in-bounds field
the field always holds the encoded bytes followed by zero padding,
regardless of the previous content.  The code compares only the encoded
bytes with the stored prefix: writing the one-byte string `"A"`
(encoded `[0x41]`) into the 2-byte field of the buffer `[0x41, 0x42]`
finds a matching prefix and skips the write entirely, so the field stays
`[0x41, 0x42]` instead of the claimed `[0x41, 0x00]`.  The second
conjunct shows that the identical call on `[0x42, 0x42]` (differing
prefix) does zero-pad as claimed. -/
theorem c6_putStringEx_skips_padding_on_equal_prefix :
    putStringEx (some (fun s => some (s.data.map (fun c => UInt8.ofNat c.toNat))))
        ⟨[0x41, 0x42], false, none⟩ 0 2 "A" =
      some ⟨[0x41, 0x42], false, none⟩ ∧
    putStringEx (some (fun s => some (s.data.map (fun c => UInt8.ofNat c.toNat))))
        ⟨[0x42, 0x42], false, none⟩ 0 2 "A" =
      some ⟨[0x41, 0x00], true, none⟩ := by
  decide

set_option maxRecDepth 4096 in
/-- C7.  The claim states that a buffer created via `Create()`
(= `Wrap(nil)`) is empty.  The code substitutes `make([]byte, 256)` for
the nil array — a slice of length 256, not capacity 256 — so the fresh
buffer has `BufferLength() = 256` and `Bytes()` returns 256 zero bytes. -/
theorem c7_create_yields_256_byte_buffer :
    create = wrap none ∧
    bufferLength create = 256 ∧
    bytes create = List.replicate 256 0 := by
  refine ⟨rfl, ?_, ?_⟩ <;> simp [bytes, create, wrap, bufferLength]

/-- C8.  The claim states that `GetOffsetArray` rejects an unsupported
index-field width (such as 3) with InvalidArguments and returns an empty
array.  Line 574 of the source re-checks `sevenValues[3] == 3` instead of
`sevenValues[5] == 3`, so the argument tuple `[4,4,8,4,12,3,16]` — well
formed except for its index-field width 3 — passes validation; the index
switch then matches no case, the start index silently becomes 0, and the
call returns the offsets `[100, 116]` with no error at all. -/
theorem c8_getOffsetArray_accepts_index_width_3 :
    getOffsetArray (wrap (some [0, 0, 0, 0, 100, 0, 0, 0, 2, 0, 0, 0, 0, 0, 0, 0]))
        [4, 4, 8, 4, 12, 3, 16] =
      (wrap (some [0, 0, 0, 0, 100, 0, 0, 0, 2, 0, 0, 0, 0, 0, 0, 0]),
       [100, 116]) := by
  decide

theorem clampLevel_idem (level : Int) :
    clampLevel (clampLevel level) = clampLevel level := by
  simp only [clampLevel]
  split_ifs <;> omega

/-- C10.  On an error-free buffer with an in-bounds region,
`CompressInto` and `CompressReplace` never reject the compression level:
the level is clamped into `[-2, 9]` (a level below −2 behaves exactly as
−2, a level above 9 exactly as 9, an in-range level is used as given) and
no error arises from the level, whatever the abstract zlib writer
`deflate` does. -/
theorem c10_compress_level_clamped (deflate : Int → List UInt8 → List UInt8)
    (b : Buffer) (offset size level : Int) (buffer : List UInt8)
    (hb : b.err = none) (ho : 0 ≤ offset) (hs : 0 ≤ size)
    (hos : offset + size ≤ bufferLength b) :
    compressInto deflate b offset size level buffer =
      compressInto deflate b offset size (clampLevel level) buffer ∧
    compressReplace deflate b offset size level =
      compressReplace deflate b offset size (clampLevel level) ∧
    (level < -2 → clampLevel level = -2) ∧
    (9 < level → clampLevel level = 9) ∧
    (-2 ≤ level → level ≤ 9 → clampLevel level = level) ∧
    (compressInto deflate b offset size level buffer).1.err = none := by
  refine ⟨?_, ?_, fun h => ?_, fun h => ?_, fun h1 h2 => ?_, ?_⟩
  · simp only [compressInto, clampLevel_idem]
  · simp only [compressReplace, compressInto, clampLevel_idem]
  · simp only [clampLevel]
    split_ifs
    all_goals omega
  · simp only [clampLevel]
    split_ifs
    all_goals omega
  · simp only [clampLevel]
    split_ifs
    all_goals omega
  · simp only [compressInto, hb]
    rw [if_neg (by simp), if_neg (by omega)]
    exact hb

/-- Witness for C10 at a concrete buffer, region and out-of-range level. -/
theorem c10_compress_level_clamped_witness :
    compressInto (fun _ l => l) ⟨[0], false, none⟩ 0 1 100 [] =
      compressInto (fun _ l => l) ⟨[0], false, none⟩ 0 1 (clampLevel 100) [] ∧
    compressReplace (fun _ l => l) ⟨[0], false, none⟩ 0 1 100 =
      compressReplace (fun _ l => l) ⟨[0], false, none⟩ 0 1 (clampLevel 100) ∧
    clampLevel 100 = 9 :=
  have h := c10_compress_level_clamped (fun _ l => l) ⟨[0], false, none⟩ 0 1 100
    [] rfl (by decide) (by decide) (by decide)
  ⟨h.1, h.2.1, h.2.2.2.1 (by decide)⟩

/-- C2 counterexample.  The claim states that while the error state is
set, every operation other than `ClearError` is a no-op returning a
zero/empty value, and that no operation other than `ClearError` resumes
normal behaviour or mutates state.  Five operations violate it: on a
container whose error state was just set by a rejected `SetPixelType(0)`,
`GetPixelType` still returns the stored pixel type 7 (not a zero value);
and on buffers with the error state set, `ReplaceBuffer` replaces the
content, marks it dirty and clears the error without any `ClearError`
call, `ClearModified` still mutates the dirty flag, `BufferLength`
returns the actual length 1 and `IsModified` the actual dirty flag
`true` (not zero/empty values). -/
theorem c2_sticky_error_counterexample :
    (setPixelType (createNew (fun _ _ => ()) 8 8 7) 0).err =
      some GoError.illegalArguments ∧
    getPixelType (setPixelType (createNew (fun _ _ => ()) 8 8 7) 0) = 7 ∧
    replaceBuffer ⟨[9], false, some .outOfRange⟩ (some [1]) =
      ⟨[1], true, none⟩ ∧
    clearModified ⟨[9], true, some .outOfRange⟩ =
      ⟨[9], false, some .outOfRange⟩ ∧
    bufferLength ⟨[9], true, some .outOfRange⟩ = 1 ∧
    isModified ⟨[9], true, some .outOfRange⟩ = true := by
  decide

/-- C2 as amended: while the error state is set, every modelled operation
is a no-op that leaves the object unchanged and returns a zero or empty
value, with exactly the exceptions the counterexample exhibits:
`ClearError` clears the error; `ReplaceBuffer` replaces the content,
marks the buffer dirty and resets the error state; `ClearModified` still
clears the dirty flag; `BufferLength` and `IsModified` answer from the
stored state (the actual length and dirty flag); and `GetPixelType`
returns the stored pixel type. -/
theorem c2_amended_sticky_error (α : Type) (b : Buffer) (e : GoError)
    (p : Pvr α) (e2 : GoError) (hb : b.err = some e) (hp : p.err = some e2) :
    (∀ o : Int, getUint8 b o = (b, 0) ∧ getInt8 b o = (b, 0) ∧
      getUint16 b o = (b, 0) ∧ getInt16 b o = (b, 0) ∧
      getUint32 b o = (b, 0) ∧ getInt32 b o = (b, 0)) ∧
    bytes b = [] ∧
    (∀ dec raw o s null, getStringEx dec raw b o s null = (b, "")) ∧
    (∀ o s : Int, getBuffer b o s = some (b, [])) ∧
    (∀ (o : Int) (v : Nat), putUint8 b o v = (b, 0) ∧
      putUint16 b o v = (b, 0) ∧ putUint32 b o v = (b, 0)) ∧
    (∀ o src, putBuffer b o src = b) ∧
    (∀ enc o s v, putStringEx enc b o s v = some b) ∧
    (∀ o n : Int, insertBytes b o n = b ∧ deleteBytes b o n = some b) ∧
    (∀ inflate (o s : Int), decompressInto inflate b o s = (b, []) ∧
      decompressReplace inflate b o s = some (b, 0)) ∧
    (∀ deflate (o s lvl : Int) buffer,
      compressInto deflate b o s lvl buffer = (b, buffer) ∧
      compressReplace deflate b o s lvl = some (b, 0)) ∧
    (∀ vals, getOffsetArray b vals = (b, [])) ∧
    clearModified b = { b with dirty := false } ∧
    bufferLength b = (b.buf.length : Int) ∧
    isModified b = b.dirty ∧
    (∀ x, replaceBuffer b x =
      { buf := x.getD [], dirty := true, err := none }) ∧
    getWidth p = 0 ∧ getHeight p = 0 ∧
    (∀ copyImg, getImage copyImg p = none) ∧
    (∀ dims copyImg i, setImage dims copyImg p i = p) ∧
    (∀ resize w h pres, setDimension resize p w h pres = p) ∧
    (∀ pt, setPixelType p pt = p) ∧
    getChannelType p = 0 ∧ (∀ ct, setChannelType p ct = p) ∧
    getColorSpace p = 0 ∧ (∀ cs, setColorSpace p cs = p) ∧
    getQuality p = 0 ∧ (∀ q, setQuality p q = p) ∧
    getWeightByAlpha p = false ∧ (∀ bv, setWeightByAlpha p bv = p) ∧
    isPerceptiveMetric p = false ∧ (∀ bv, setPerceptiveMetric p bv = p) ∧
    getPixelType p = p.info.pixelType := by
  repeat' apply And.intro
  all_goals intros
  all_goals
    simp [getUint8, getInt8, getUint16, getInt16, getUint32, getInt32,
      toSigned, bytes, getStringEx, getBuffer, putUint8, putUint16,
      putUint32, putBuffer, putStringEx, insertBytes, deleteBytes,
      decompressInto, decompressReplace, compressInto, compressReplace,
      getOffsetArray, clearModified, bufferLength, isModified,
      replaceBuffer, getWidth, getHeight, getImage, setImage,
      setDimension, setPixelType, getPixelType, getChannelType,
      setChannelType, getColorSpace, setColorSpace, getQuality, setQuality,
      getWeightByAlpha, setWeightByAlpha, isPerceptiveMetric,
      setPerceptiveMetric, hb, hp]

/-- Witness for C2 as amended, at a buffer and a container with the error
state set. -/
theorem c2_amended_sticky_error_witness :
    getUint8 ⟨[9], true, some .outOfRange⟩ 0 =
      (⟨[9], true, some .outOfRange⟩, 0) ∧
    clearModified ⟨[9], true, some .outOfRange⟩ =
      { (⟨[9], true, some .outOfRange⟩ : Buffer) with dirty := false } ∧
    setQuality { createNew (fun _ _ => ()) 8 8 7 with
                 err := some GoError.outOfRange } 5 =
      { createNew (fun _ _ => ()) 8 8 7 with err := some GoError.outOfRange } := by
  have h := c2_amended_sticky_error Unit ⟨[9], true, some .outOfRange⟩
    .outOfRange
    { createNew (fun _ _ => ()) 8 8 7 with err := some GoError.outOfRange }
    .outOfRange rfl rfl
  obtain ⟨hga, -, -, -, -, -, -, -, -, -, -, hcm, -, -, -, -, -, -, -, -, -,
    -, -, -, -, -, hsq, -, -, -, -, -⟩ := h
  exact ⟨(hga 0).1, hcm, hsq 5⟩

/-- C5 as amended: on an error-free container, the pixel-type,
channel-type and color-space setters reject any value outside the
corresponding enumeration with InvalidArguments, leaving every stored
parameter unchanged; `SetQuality`, however, never rejects: it clamps its
argument into `[QUALITY_LOW, QUALITY_HIGH]` and sets no error; and the
boolean setters (weight-by-alpha, perceptual metric) accept every value. -/
theorem c5_amended_parameter_setters (α : Type) (p : Pvr α)
    (hp : p.err = none) :
    (∀ pt, ¬ (pt = TYPE_BC1 ∨ pt = TYPE_BC2 ∨ pt = TYPE_BC3) →
      setPixelType p pt = { p with err := some .illegalArguments }) ∧
    (∀ ct, ct < CHAN_UBN ∨ CHAN_SB < ct →
      setChannelType p ct = { p with err := some .illegalArguments }) ∧
    (∀ cs, cs ≠ SPACE_LRGB ∧ cs ≠ SPACE_SRGB →
      setColorSpace p cs = { p with err := some .illegalArguments }) ∧
    (∀ q, (setQuality p q).err = none ∧
      (setQuality p q).quality = min QUALITY_HIGH (max QUALITY_LOW q)) ∧
    (∀ bv, setWeightByAlpha p bv = { p with weightByAlpha := bv } ∧
      setPerceptiveMetric p bv = { p with useMetric := bv }) := by
  refine ⟨fun pt h => ?_, fun ct h => ?_, fun cs h => ?_, fun q => ⟨?_, ?_⟩,
    fun bv => ⟨?_, ?_⟩⟩
  · simp [setPixelType, pixelTypeSupported, hp, h]
  · simp [setChannelType, hp]
    omega
  · simp [setColorSpace, hp, h.1, h.2]
  · simp [setQuality, hp]
  · simp only [setQuality, hp, Option.isSome_none, Bool.false_eq_true,
      if_false, QUALITY_LOW, QUALITY_HIGH]
    split_ifs <;> omega
  · simp [setWeightByAlpha, hp]
  · simp [setPerceptiveMetric, hp]

/-- Witness for C5 as amended, at a fresh container: `SetPixelType(8)` is
rejected with InvalidArguments and `SetQuality(-7)` clamps to 0 without
error. -/
theorem c5_amended_parameter_setters_witness :
    setPixelType (createNew (fun _ _ => ()) 8 8 7) 8 =
      { createNew (fun _ _ => ()) 8 8 7 with
        err := some GoError.illegalArguments } ∧
    (setQuality (createNew (fun _ _ => ()) 8 8 7) (-7)).err = none ∧
    (setQuality (createNew (fun _ _ => ()) 8 8 7) (-7)).quality =
      min QUALITY_HIGH (max QUALITY_LOW (-7)) :=
  have h := c5_amended_parameter_setters Unit (createNew (fun _ _ => ()) 8 8 7)
    rfl
  ⟨h.1 8 (by decide), (h.2.2.2.1 (-7)).1, (h.2.2.2.1 (-7)).2⟩

theorem deleteBytes_zero_pos (buf : List UInt8) (d : Bool) (N : Nat)
    (hN : 0 < N) (hNL : N ≤ buf.length) :
    deleteBytes ⟨buf, d, none⟩ 0 N = some ⟨buf.drop N, true, none⟩ := by
  simp only [deleteBytes, Option.isSome_none, Bool.false_eq_true, if_false,
    bufferLength]
  rw [if_neg (by omega), if_pos (by exact_mod_cast hN), if_pos trivial,
    if_neg (by omega)]
  norm_num

theorem deleteBytes_pos_pos (buf : List UInt8) (d : Bool) (O N : Nat)
    (hO : 0 < O) (hOL : O ≤ buf.length) (hN : 0 < N) (hNL : N ≤ buf.length) :
    deleteBytes ⟨buf, d, none⟩ O N = some
      ⟨if O + N + N < buf.length then
          copyAt (buf.take (buf.length - N)) O (buf.drop (O + N))
        else buf.take (buf.length - N), true, none⟩ := by
  simp only [deleteBytes, Option.isSome_none, Bool.false_eq_true, if_false,
    bufferLength]
  rw [if_neg (by omega), if_pos (by exact_mod_cast hN),
    if_neg (by exact_mod_cast Nat.pos_iff_ne_zero.mp hO),
    if_neg (by omega)]
  have ht : (((buf.length : Int)) - (N : Int)).toNat = buf.length - N := by
    omega
  rw [ht]
  have hlt : (buf.take (buf.length - N)).length = buf.length - N := by
    simp
  rcases Nat.lt_or_ge (O + N + N) buf.length with hcase | hcase
  · rw [if_pos (by rw [hlt]; omega), if_pos hcase]
    rw [show (((O : Int)) + (N : Int)).toNat = O + N from by omega,
      show (((O : Int))).toNat = O from by omega]
  · rw [if_neg (by rw [hlt]; omega), if_neg (by omega)]

theorem insert_delete_head (l : List UInt8) (N : Nat) :
    ((l ++ List.replicate N 0).take N ++ l).drop N = l :=
  List.drop_left' (by
    simp only [List.length_take, List.length_append, List.length_replicate]
    omega)

theorem insert_delete_trunc (l : List UInt8) (O N : Nat) (hO : O ≤ l.length)
    (hON : l.length ≤ O + N) :
    ((l ++ List.replicate N 0).take (O + N) ++ l.drop O).take l.length = l := by
  have h2 : l.length ≤ ((l ++ List.replicate N 0).take (O + N)).length := by
    simp only [List.length_take, List.length_append, List.length_replicate]
    omega
  rw [List.take_append_of_le_length h2, List.take_take,
    show min l.length (O + N) = l.length from by omega,
    List.take_append_of_le_length (le_refl _), List.take_length]

theorem insert_delete_shift (l : List UInt8) (O N : Nat)
    (hON : O + N ≤ l.length) :
    copyAt ((l.take (O + N) ++ l.drop O).take l.length) O
      ((l.take (O + N) ++ l.drop O).drop (O + N)) = l := by
  have h1 : (l.take (O + N)).length = O + N := by simp; omega
  have hdrop : (l.take (O + N) ++ l.drop O).drop (O + N) = l.drop O :=
    List.drop_left' h1
  have htake : (l.take (O + N) ++ l.drop O).take l.length =
      l.take (O + N) ++ (l.drop O).take (l.length - (O + N)) := by
    rw [List.take_append_eq_append_take, List.take_take,
      show min l.length (O + N) = O + N from by omega, h1]
  rw [hdrop, htake, copyAt]
  simp only [List.length_append, List.length_take, List.length_drop,
    List.length_replicate]
  rw [show min (l.length - O)
      (min (O + N) l.length + min (l.length - (O + N)) (l.length - O) - O) =
      l.length - O from by omega]
  rw [@List.take_append_of_le_length _ (l.take (O + N))
    ((l.drop O).take (l.length - (O + N))) O (by
      simp only [List.length_take]
      omega)]
  rw [List.take_take, show min O (O + N) = O from by omega]
  rw [@List.take_of_length_le _ (l.length - O) (l.drop O) (by simp)]
  rw [@List.drop_eq_nil_of_le _
    (l.take (O + N) ++ (l.drop O).take (l.length - (O + N)))
    (O + (l.length - O)) (by
      simp only [List.length_append, List.length_take, List.length_drop]
      omega)]
  rw [List.append_nil, List.take_append_drop]

/-- C1.  On an error-free buffer, for any valid insertion offset
`0 ≤ o ≤ length` and any `n ≥ 0`, `InsertBytes(o, n)` followed by
`DeleteBytes(o, n)` restores the original byte content (and hence the
original length), and leaves the error state clear.  Note this holds even
where `DeleteBytes` skips its tail-shifting copy (`o + 2n ≥ length + n`),
because the bytes that `InsertBytes` left behind in the opened gap equal
the original ones there. -/
theorem c1_insert_then_delete_restores (b : Buffer) (o n : Int)
    (hb : b.err = none) (h0 : 0 ≤ o) (h1 : o ≤ bufferLength b) (h2 : 0 ≤ n) :
    ∃ b', deleteBytes (insertBytes b o n) o n = some b' ∧
      b'.buf = b.buf ∧ b'.err = none := by
  lift o to ℕ using h0 with O
  lift n to ℕ using h2 with N
  rw [bufferLength] at h1
  replace h1 : O ≤ b.buf.length := by exact_mod_cast h1
  have hc : ¬ ((O : Int) < 0 ∨ bufferLength b < (O : Int)) := by
    rw [bufferLength]; omega
  rcases Nat.eq_zero_or_pos N with hN | hN
  · subst hN
    refine ⟨b, ?_, rfl, hb⟩
    simp [insertBytes, deleteBytes, hb, hc]
  · have hON : ((O : Int) + (N : Int)).toNat = O + N := by omega
    have hOn : ((O : Int)).toNat = O := by omega
    have hNn : ((N : Int)).toNat = N := by omega
    have hins : insertBytes b O N =
        ⟨(b.buf ++ List.replicate N 0).take (O + N) ++ b.buf.drop O,
          true, none⟩ := by
      simp only [insertBytes, hb, Option.isSome_none, Bool.false_eq_true,
        if_false]
      rw [if_neg hc, if_pos (by exact_mod_cast hN)]
      congr 1
      rw [hON, hOn, hNn, copyAt]
      simp only [List.length_drop, List.length_append, List.length_replicate]
      rw [show min (b.buf.length - O) (b.buf.length + N - (O + N)) =
        b.buf.length - O from by omega]
      rw [@List.take_of_length_le _ (b.buf.length - O) (b.buf.drop O) (by simp),
        @List.drop_eq_nil_of_le _ (b.buf ++ List.replicate N 0)
          (O + N + (b.buf.length - O)) (by simp; omega), List.append_nil]
    have hlen1 : ((b.buf ++ List.replicate N 0).take (O + N) ++
        b.buf.drop O).length = b.buf.length + N := by
      simp
      omega
    rw [hins]
    rcases Nat.eq_zero_or_pos O with hO | hO
    · subst hO
      push_cast
      simp only [Nat.zero_add, List.drop_zero] at hlen1 ⊢
      rw [deleteBytes_zero_pos _ _ N hN (by rw [hlen1]; omega)]
      exact ⟨_, rfl, insert_delete_head b.buf N, rfl⟩
    · rw [deleteBytes_pos_pos _ _ O N hO (by rw [hlen1]; omega) hN
        (by rw [hlen1]; omega)]
      refine ⟨_, rfl, ?_, rfl⟩
      rw [hlen1, show b.buf.length + N - N = b.buf.length from by omega]
      split_ifs with hsp
      · have hON2 : O + N ≤ b.buf.length := by omega
        rw [show List.take (O + N) (b.buf ++ List.replicate N 0) =
          List.take (O + N) b.buf from
          @List.take_append_of_le_length _ b.buf (List.replicate N 0) (O + N)
            hON2]
        exact insert_delete_shift b.buf O N hON2
      · exact insert_delete_trunc b.buf O N h1 (by omega)


/-- Witness for C1 at the concrete buffer `[1, 2, 3]` with `o = 1`,
`n = 2`. -/
theorem c1_insert_then_delete_restores_witness :
    ∃ b', deleteBytes (insertBytes ⟨[1, 2, 3], false, none⟩ 1 2) 1 2 =
        some b' ∧ b'.buf = [1, 2, 3] ∧ b'.err = none :=
  c1_insert_then_delete_restores ⟨[1, 2, 3], false, none⟩ 1 2 rfl (by decide)
    (by decide) (by decide)

/-- C9.  On an error-free buffer, a well-formed `GetOffsetArray` argument
tuple whose offset field reads a base offset `O > 0`, whose count field
reads 5, whose index field is configured (positive field offset,
supported width) and reads 2, and whose structure size is 16, yields
exactly the three offsets `[O+32, O+48, O+64]`.  The read hypotheses
mirror the width dispatch of the source and state that each field read
succeeds without disturbing the buffer. -/
theorem c9_getOffsetArray_count5_index2 (b : Buffer) (v0 w0 v2 w2 v4 w4 O : Int)
    (hb : b.err = none)
    (hv0 : 0 < v0) (hv2 : 0 < v2) (hv4 : 0 < v4)
    (hw0 : w0 = 2 ∨ w0 = 4)
    (hw2 : w2 = 1 ∨ w2 = 2 ∨ w2 = 4)
    (hw4 : w4 = 1 ∨ w4 = 2 ∨ w4 = 4)
    (hO : 0 < O)
    (hofs : (if w0 = 2 then getInt16 b v0 else getInt32 b v0) = (b, O))
    (hcnt : (if w2 = 1 then getInt8 b v2
             else if w2 = 2 then getInt16 b v2 else getInt32 b v2) = (b, 5))
    (hidx : (if w4 = 1 then getInt8 b v4
             else if w4 = 2 then getInt16 b v4 else getInt32 b v4) = (b, 2)) :
    getOffsetArray b [v0, w0, v2, w2, v4, w4, 16] =
      (b, [O + 32, O + 48, O + 64]) := by
  rcases hw0 with rfl | rfl <;> rcases hw2 with rfl | rfl | rfl <;>
      rcases hw4 with rfl | rfl | rfl <;>
    · norm_num at hofs hcnt hidx
      simp only [getOffsetArray, hb, Option.isSome_none, Bool.false_eq_true,
        if_false, List.getD, List.length_cons, List.length_nil]
      norm_num [hofs, hcnt, hidx, hv4]
      rw [if_neg (by omega), if_pos hO]
      rw [show ((List.range (Int.toNat 3)).flatMap fun a => [(a : Int)]) =
        [0, 1, 2] from rfl]
      norm_num

/-- Witness for C9 at a concrete 16-byte buffer whose offset field (at 4)
holds 100, count field (at 8) holds 5 and index field (at 12) holds 2. -/
theorem c9_getOffsetArray_count5_index2_witness :
    getOffsetArray
        (wrap (some [0, 0, 0, 0, 100, 0, 0, 0, 5, 0, 0, 0, 2, 0, 0, 0]))
        [4, 4, 8, 4, 12, 4, 16] =
      (wrap (some [0, 0, 0, 0, 100, 0, 0, 0, 5, 0, 0, 0, 2, 0, 0, 0]),
       [100 + 32, 100 + 48, 100 + 64]) :=
  c9_getOffsetArray_count5_index2
    (wrap (some [0, 0, 0, 0, 100, 0, 0, 0, 5, 0, 0, 0, 2, 0, 0, 0]))
    4 4 8 4 12 4 100 rfl (by decide) (by decide) (by decide)
    (Or.inr rfl) (Or.inr (Or.inr rfl)) (Or.inr (Or.inr rfl)) (by decide)
    (by decide) (by decide) (by decide)

/-- C4.  Whenever importing PVR/PVRZ data into an error-free container
fails for any reason — the `S < 0x34` / `S > 2^25` wrapper-size failures
included — the container keeps its header fields, metadata, pixel image
and encoding parameters exactly as they were; only the error state
changes.  (`importPvr` returns `none` only for a Go runtime fault, never
reached from `Load`; any returned object with an error set is otherwise
identical to the input object.) -/
theorem c4_import_failure_preserves_state (α : Type)
    (inflate : List UInt8 → Option (List UInt8))
    (storageReq : Int → Int → Int → Int)
    (squishDec : Int → Int → List UInt8 → Int → α)
    (p p' : Pvr α) (data : List UInt8)
    (hp : p.err = none)
    (h : importPvr inflate storageReq squishDec p data = some p')
    (hf : p'.err ≠ none) :
    p'.info = p.info ∧ p'.img = p.img ∧ p'.quality = p.quality ∧
    p'.weightByAlpha = p.weightByAlpha ∧ p'.useMetric = p.useMetric := by
  have hH : ∀ (buf : Buffer) (sig : Int),
      (∃ e, importPvrHeader storageReq squishDec p buf sig =
        { p with err := some e }) ∨
      (∃ i im, importPvrHeader storageReq squishDec p buf sig =
        { p with info := i, img := im }) := by
    intro buf sig
    unfold importPvrHeader
    split
    · exact Or.inl ⟨_, rfl⟩
    · exact Or.inr ⟨_, _, rfl⟩
  simp only [importPvr] at h
  repeat' split at h
  any_goals exact Option.noConfusion h
  all_goals (injection h with h; subst h)
  -- five direct-failure branches (only the error state changes), then the
  -- two branches that delegate to the header parser
  · exact ⟨rfl, rfl, rfl, rfl, rfl⟩
  · exact ⟨rfl, rfl, rfl, rfl, rfl⟩
  · exact ⟨rfl, rfl, rfl, rfl, rfl⟩
  · exact ⟨rfl, rfl, rfl, rfl, rfl⟩
  · exact ⟨rfl, rfl, rfl, rfl, rfl⟩
  · rcases hH _ _ with ⟨e, he⟩ | ⟨i, im, he⟩
    · rw [he]
      exact ⟨rfl, rfl, rfl, rfl, rfl⟩
    · rw [he] at hf
      exact absurd hp hf
  · rcases hH _ _ with ⟨e, he⟩ | ⟨i, im, he⟩
    · rw [he]
      exact ⟨rfl, rfl, rfl, rfl, rfl⟩
    · rw [he] at hf
      exact absurd hp hf

/-- Witness for C4: importing the 4-byte input `FF FF FF FF` (declared
wrapper size −1 < 0x34) into a fresh container fails and leaves every
field except the error state unchanged. -/
theorem c4_import_failure_preserves_state_witness :
    ({ createNew (fun _ _ => ()) 8 8 7 with
        err := some (GoError.other "PVR target size outside of accepted limits") }
      : Pvr Unit).info = (createNew (fun _ _ => ()) 8 8 7).info ∧
    ({ createNew (fun _ _ => ()) 8 8 7 with
        err := some (GoError.other "PVR target size outside of accepted limits") }
      : Pvr Unit).img = (createNew (fun _ _ => ()) 8 8 7).img ∧
    ({ createNew (fun _ _ => ()) 8 8 7 with
        err := some (GoError.other "PVR target size outside of accepted limits") }
      : Pvr Unit).quality = (createNew (fun _ _ => ()) 8 8 7).quality ∧
    ({ createNew (fun _ _ => ()) 8 8 7 with
        err := some (GoError.other "PVR target size outside of accepted limits") }
      : Pvr Unit).weightByAlpha = (createNew (fun _ _ => ()) 8 8 7).weightByAlpha ∧
    ({ createNew (fun _ _ => ()) 8 8 7 with
        err := some (GoError.other "PVR target size outside of accepted limits") }
      : Pvr Unit).useMetric = (createNew (fun _ _ => ()) 8 8 7).useMetric :=
  c4_import_failure_preserves_state Unit (fun _ => none) (fun _ _ _ => 0)
    (fun _ _ _ _ => ()) (createNew (fun _ _ => ()) 8 8 7)
    { createNew (fun _ _ => ()) 8 8 7 with
      err := some (GoError.other "PVR target size outside of accepted limits") }
    [255, 255, 255, 255] rfl (by decide) (by decide)

end IETools



